import Mathlib

/-!
Verification of the Subito subnetting tool core (calc.py, validation.py).

The Python functions are embedded as executable Lean definitions.
Python exceptions are modelled by the PyResult type below; Python ints are
Nat (or Int where a value can go negative); Python binary strings are
List Char.  Python list.sort(reverse=True) is modelled by sortDesc; the
in-place mutation of list arguments is modelled by returning the final
state of the list next to the result.  Python computes the host reserve
with float arithmetic (ceil(h * (r/100))); it is modelled by the exact
rational ceiling, which agrees with the float computation on the inputs
used in the theorems below (reserve 0 and 20 percent).
-/

/-- Exception values raised by the Python code (the message is kept;
apostrophes of the original messages are dropped). -/
inductive PyErr where
  | valueError (msg : String)
  | userWarning (msg : String)
  | typeError (msg : String)
deriving DecidableEq

/-- Result of a Python call: a value or a raised exception. -/
inductive PyResult (α : Type) where
  | ok (val : α)
  | err (e : PyErr)
deriving DecidableEq

instance : Monad PyResult where
  pure := .ok
  bind := fun x f => match x with | .ok a => f a | .err e => .err e

/-- True when the call raised. -/
def PyResult.isErr {α : Type} : PyResult α → Bool
  | .ok _ => false
  | .err _ => true

/-- Python bin digit character. -/
def binDigit (m : Nat) : Char := if m = 1 then '1' else '0'

/-- Fuel-driven worker for natToBin (structural recursion so that the
kernel can evaluate it). -/
def natToBinGo : Nat → Nat → List Char
  | 0, _ => []
  | fuel + 1, m => if m < 2 then [binDigit m] else natToBinGo fuel (m / 2) ++ [binDigit (m % 2)]

/-- Python bin(n)[2:] for n ≥ 0: binary digits, most significant first,
and the single digit 0 for n = 0. -/
def natToBin (n : Nat) : List Char := natToBinGo (n + 1) n

/-- Python str.rjust(n, c) on a character list. -/
def rjust (n : Nat) (c : Char) (l : List Char) : List Char :=
  List.replicate (n - l.length) c ++ l

/-- Python int(s, 2): none when the string is empty or holds a character
other than 0 or 1. -/
def parseBin (l : List Char) : Option Nat :=
  if l.isEmpty then none
  else l.foldl (fun acc c =>
    acc.bind fun a =>
      if c = '0' then some (2 * a) else if c = '1' then some (2 * a + 1) else none)
    (some 0)

/-- Numeric value of a binary character list (callers have validated the
characters, as the Python code does). -/
def bitsVal (l : List Char) : Nat := (parseBin l).getD 0

/-- Decimal value of a digit character list. -/
def digitsVal (l : List Char) : Nat := l.foldl (fun a c => 10 * a + (c.toNat - 48)) 0

/-- Split a character list at every occurrence of the separator. -/
def splitOnCh (c : Char) : List Char → List (List Char)
  | [] => [[]]
  | a :: rest =>
    let r := splitOnCh c rest
    if a = c then [] :: r
    else match r with
      | [] => [[a]]
      | g :: gs => (a :: g) :: gs

/-- Octet-string side of the regex of validation.py: four dot-separated
groups of one to three decimal digits. -/
def parseIpOctets (s : String) : Option (Nat × Nat × Nat × Nat) :=
  match splitOnCh '.' s.data with
  | [a, b, c, d] =>
    if [a, b, c, d].all (fun t => 1 ≤ t.length && t.length ≤ 3 && t.all Char.isDigit)
    then some (digitsVal a, digitsVal b, digitsVal c, digitsVal d)
    else none
  | _ => none

/-- Eight binary digits of one octet: bin(octet)[2:].rjust(8, the zero digit). -/
def octBits (o : Nat) : List Char := rjust 8 '0' (natToBin o)

/-- validation.is_ipaddr_well_formed: the joined padded binary expansions
of the four octets must measure exactly 32 characters. -/
def is_ipaddr_well_formed (s : String) : Bool :=
  match parseIpOctets s with
  | some (a, b, c, d) => ((octBits a).length + (octBits b).length + (octBits c).length + (octBits d).length) == 32
  | none => false

/-- The 32 binary digits of a well-formed address string (callers of this
helper have validated the string, as the Python code has). -/
def ipStrBits (s : String) : List Char :=
  match parseIpOctets s with
  | some (a, b, c, d) => octBits a ++ octBits b ++ octBits c ++ octBits d
  | none => []

/-- Integer value of a well-formed address string, through its 32-digit
binary string, as the Python code computes it. -/
def ipStrToInt (s : String) : Nat := bitsVal (ipStrBits s)

/-- Decimal octet strings of a 32-digit binary character list:
str(int(slice, 2)) for the four slices of eight digits. -/
def octSlices (l : List Char) : List String :=
  [0, 8, 16, 24].map (fun n => Nat.repr (bitsVal ((l.drop n).take 8)))

/-- calc.convert_prefix_to_mask. -/
def convert_pfx_to_mask (p : Nat) : PyResult String :=
  if !(8 ≤ p && p ≤ 30) then .err (.valueError "Invalid prefix!")
  else
    let maskBits := List.replicate p '1' ++ List.replicate (32 - p) '0'
    .ok (String.intercalate "." (octSlices maskBits))

/-- calc.convert_ip_addr_to_octet_notation_str, integer branch.  The
argument is a Nat; the Python check ip >= 0 holds for every caller. -/
def convert_ip_addr_to_octet_str_ofInt (ip : Nat) : PyResult String :=
  if !((rjust 32 '0' (natToBin ip)).length == 32) then
    .err (.valueError "Param ip is not a valid IP integer!")
  else .ok (String.intercalate "." (octSlices (rjust 32 '0' (natToBin ip))))

/-- calc.convert_ip_addr_to_octet_notation_str, string branch.  The
Python test is
len(ip) == 32 and len(set(ip)) == 2 and ('1' and '0' in set(ip));
its last conjunct evaluates to ('0' in set(ip)) because the literal '1'
is truthy, and len(set(ip)) == 2 demands exactly two distinct
characters.  A later int(slice, 2) raises on characters other than 0
and 1. -/
def convert_ip_addr_to_octet_str_ofStr (ip : String) : PyResult String :=
  if !(ip.data.length == 32 && ip.data.eraseDups.length == 2 && ip.data.contains '0') then
    .err (.valueError "Param ip is not a valid binary IP string!")
  else
    match ([0, 8, 16, 24].mapM (fun n => parseBin ((ip.data.drop n).take 8))) with
    | some octs => .ok (String.intercalate "." (octs.map Nat.repr))
    | none => .err (.valueError "invalid literal for int() with base 2")

/-- calc.get_addr_class (renamed: cls): address class letter and default
prefix from the first bits of the first octet. -/
def get_addr_cls (ip : String) : PyResult (String × Nat) :=
  if !(is_ipaddr_well_formed ip) then .err (.valueError "Invalid IP address!")
  else
    match parseIpOctets ip with
    | none => .err (.valueError "Invalid IP address!")
    | some (a, _, _, _) =>
      let nib := (octBits a).take 4
      if nib.take 1 = ['0'] then .ok ("A", 8)
      else if nib.take 2 = ['1', '0'] then .ok ("B", 16)
      else if nib.take 3 = ['1', '1', '0'] then .ok ("C", 24)
      else if nib = ['1', '1', '1', '0'] then .ok ("D", 0)
      else .ok ("E", 0)

/-- One row of the special_use_networks table of validation.py: the four
octets of the network, its prefix, the apt-for-subnetting flag and the
description. -/
structure SpecialUseEntry where
  o1 : Nat
  o2 : Nat
  o3 : Nat
  o4 : Nat
  pfx : Nat
  apt : Bool
  desc : String
deriving DecidableEq

/-- validation.investigate_special_use: the static special_use_networks
table, in its iteration order. -/
def special_use_networks : List SpecialUseEntry :=
  [ ⟨0, 0, 0, 0, 8, false, "\"This\" Network (RFC 1122, Section 3.2.1.3)"⟩,
    ⟨10, 0, 0, 0, 8, true, "Private-Use Networks (RFC 1918)"⟩,
    ⟨127, 0, 0, 0, 8, false, "Loopback (RFC 1122, Section 3.2.1.3)"⟩,
    ⟨169, 254, 0, 0, 16, false, "Link Local (RFC 3927)"⟩,
    ⟨172, 16, 0, 0, 12, true, "Private-Use Networks (RFC 1918)"⟩,
    ⟨192, 0, 0, 0, 24, false, "IETF Protocol Assignments (RFC 5736)"⟩,
    ⟨192, 0, 2, 0, 24, false, "TEST-NET-1 (RFC 5737)"⟩,
    ⟨192, 88, 99, 0, 24, false, "6to4 Relay Anycast (RFC 3068)"⟩,
    ⟨192, 168, 0, 0, 16, true, "Private-Use Networks (RFC 1918)"⟩,
    ⟨198, 18, 0, 0, 15, false, "Network Interconnect Device Benchmarking Testing (RFC 2544)"⟩,
    ⟨198, 51, 100, 0, 24, false, "TEST-NET-2 (RFC 5737)"⟩,
    ⟨203, 0, 113, 0, 24, false, "TEST-NET-3 (RFC 5737)"⟩,
    ⟨224, 0, 0, 0, 4, false, "Multicast (RFC 3171)"⟩,
    ⟨240, 0, 0, 0, 4, false, "Reserved for Future Use (RFC 1112, Section 4)"⟩,
    ⟨255, 255, 255, 255, 32, false, "Limited Broadcast (RFC 919, Section 7; RFC 922, Section 7)"⟩ ]

/-- Integer value of the network address of a table entry, through its
binary string, as the Python loop computes it. -/
def entryNetAddr (e : SpecialUseEntry) : Nat :=
  bitsVal (octBits e.o1 ++ octBits e.o2 ++ octBits e.o3 ++ octBits e.o4)

/-- Integer value of the mask of a table prefix: the digit 1 repeated
pfx times, left-justified to 32 digits with the digit 0. -/
def maskOfPfx (p : Nat) : Nat :=
  bitsVal (List.replicate p '1' ++ List.replicate (32 - p) '0')

/-- Loop of validation.investigate_special_use over the table: the first
entry whose masked network address equals the masked user address wins;
no match yields (false, true, the empty string). -/
def specialUseLookup (ipInt : Nat) : List SpecialUseEntry → Bool × Bool × String
  | [] => (false, true, "")
  | e :: rest =>
    if ipInt &&& maskOfPfx e.pfx == entryNetAddr e then (true, e.apt, e.desc)
    else specialUseLookup ipInt rest

/-- validation.investigate_special_use. -/
def investigate_special_use (ip : String) : PyResult (Bool × Bool × String) :=
  if !(is_ipaddr_well_formed ip) then .err (.valueError "Invalid IP address!")
  else .ok (specialUseLookup (ipStrToInt ip) special_use_networks)

/-- FaultyBlock record of validation.investigate_network_block_fit, in
the tuple order of the source: sequence number, host block length, host
block overlap, subnetting block length, explosion overlap. -/
structure Fault where
  seq : Nat
  blockLen : Nat
  hostOverlap : Int
  subnetBlockLen : Nat
  explOverlap : Int
deriving DecidableEq

/-- Descending sort, modelling Python list.sort(reverse=True). -/
def sortDesc (l : List Nat) : List Nat := List.insertionSort (· ≥ ·) l

/-- available_subnets_of_this_type of
validation.investigate_network_block_fit: zero when the required prefix
does not exceed the original one. -/
def fitAvailCnt (origPfx b : Nat) : Nat :=
  if (32 : Int) - (b : Int) ≤ (origPfx : Int) then 0 else 2 ^ (32 - b - origPfx)

/-- available_subnetting_block_len of
validation.investigate_network_block_fit: zero when the required prefix
does not exceed the original one, else the digit count of the binary
representation of the available subnet count minus one. -/
def fitAvailLen (origPfx b : Nat) : Nat :=
  if (32 : Int) - (b : Int) ≤ (origPfx : Int) then 0
  else (natToBin (2 ^ (32 - b - origPfx) - 1)).length

/-- Body of one iteration of the loop of
validation.investigate_network_block_fit: the fault recorded for the
entry b at zero-based position i of the sorted list s, if any. -/
def fitStep (origPfx shortest : Nat) (s : List Nat) (i b : Nat) : Option Fault :=
  if (32 : Int) - (b : Int) < (origPfx : Int) then
    some ⟨i + 1, b, (origPfx : Int) - ((32 : Int) - (b : Int)), fitAvailLen origPfx b, 0⟩
  else if (fitAvailCnt origPfx b ≤ s.count b && shortest < b)
      || (fitAvailCnt origPfx b < s.count b && b == shortest) then
    some ⟨i + 1, b, 0, fitAvailLen origPfx b,
      ((natToBin (s.count b - 1)).length : Int) - (fitAvailLen origPfx b : Int)⟩
  else none

/-- Loop of validation.investigate_network_block_fit over the sorted
list, collecting the recorded faults in order. -/
def fitLoop (origPfx shortest : Nat) (s : List Nat) : Nat → List Nat → List Fault
  | _, [] => []
  | n, b :: rest =>
    match fitStep origPfx shortest s n b with
    | some f => f :: fitLoop origPfx shortest s (n + 1) rest
    | none => fitLoop origPfx shortest s (n + 1) rest

/-- validation.investigate_network_block_fit.  The second component of
the returned pair is the final state of the list argument, which the
Python code sorts in place after the validation checks. -/
def investigate_network_block_fit (origPfx : Nat) (l : List Nat) :
    PyResult (Bool × List Fault) × List Nat :=
  if !(8 ≤ origPfx && origPfx ≤ 30) then
    (.err (.valueError "Invalid prefix, must keep between 8 and 30!"), l)
  else if l.length < 2 then
    (.err (.valueError "Host block list must provide at least 2 entries!"), l)
  else if 0 < (l.map (fun b => decide (b < 2))).count true then
    (.err (.valueError "Every host block length provided inside the list must be at least 2 bits!"), l)
  else
    let s := sortDesc l
    let shortest := s.getLastD 0
    let faults := fitLoop origPfx shortest s 0 s
    (.ok (faults.isEmpty, faults), s)

/-- Python math.ceil(h * (r/100)), modelled by the exact rational
ceiling of h*r/100. -/
def pyCeilPercent (h r : Nat) : Nat := (h * r + 99) / 100

/-- One attempt of the config regex at the head of the character list:
a digit run, a colon, a digit run, then optionally the letter x and a
digit run; returns the three captured values and the rest of the list.
The greedy digit runs are maximal, matching re behaviour. -/
def matchCfgAt (cs : List Char) : Option ((Nat × Nat × Option Nat) × List Char) :=
  let (d1, r1) := cs.span Char.isDigit
  if d1.isEmpty then none
  else
    match r1 with
    | ':' :: r2 =>
      let (d2, r3) := r2.span Char.isDigit
      if d2.isEmpty then none
      else
        match r3 with
        | 'x' :: r4 =>
          let (d3, r5) := r4.span Char.isDigit
          if d3.isEmpty then some ((digitsVal d1, digitsVal d2, none), r3)
          else some ((digitsVal d1, digitsVal d2, some (digitsVal d3)), r5)
        | _ => some ((digitsVal d1, digitsVal d2, none), r3)
    | _ => none

/-- re.findall scanning: try the pattern at each position from the left,
continue after every match; fuel-driven structural recursion. -/
def findallCfgGo : Nat → List Char → List (Nat × Nat × Option Nat)
  | 0, _ => []
  | _, [] => []
  | fuel + 1, cs =>
    match matchCfgAt cs with
    | some (g, rest) => g :: findallCfgGo fuel rest
    | none => findallCfgGo fuel (cs.drop 1)

/-- re.findall of the config regex over the whole config string. -/
def findallCfg (s : String) : List (Nat × Nat × Option Nat) :=
  findallCfgGo (s.data.length + 1) s.data

/-- Per-match processing loop of calc.get_host_blocks: validates the
host count and multiplier, computes the demanded block (as a bit length
when the flag is set) and emits multiplier copies. -/
def processCfgMatches (isBinary : Bool) : List (Nat × Nat × Option Nat) → PyResult (List Nat)
  | [] => .ok []
  | (h, r, mo) :: rest =>
    if h < 2 then .err (.valueError "Host count must be at least 2!")
    else
      let mult := match mo with | some m => m | none => 1
      if mult < 1 then .err (.valueError "Block multipliers must be greater than zero!")
      else
        let fb0 := h + pyCeilPercent h r
        let fb := if isBinary then (natToBin fb0).length else fb0
        match processCfgMatches isBinary rest with
        | .err e => .err e
        | .ok bs => .ok (List.replicate mult fb ++ bs)

/-- calc.get_host_blocks. -/
def get_host_blocks (s : String) (isBinaryBlockLen : Bool) : PyResult (List Nat) :=
  match findallCfg s with
  | [] => .err (.valueError "Insufficient configuration string!")
  | ms =>
    match processCfgMatches isBinaryBlockLen ms with
    | .err e => .err e
    | .ok blocks =>
      if blocks.length < 2 then .err (.valueError "Provide at least 2 host blocks!")
      else .ok (sortDesc blocks)

/-- Integer subnet properties computed for one block inside the loop of
calc.create_subnets (lines 250-257 of calc.py). -/
structure SubnetInts where
  addrI : Nat
  succI : Nat
  firstI : Nat
  lastI : Nat
  broadcastI : Nat
  hostCountI : Int
  pfxI : Nat
deriving DecidableEq

/-- The integer subnet properties of one block of size b placed at the
running address current. -/
def subnetIntsOf (current b : Nat) : SubnetInts :=
  { addrI := current
    succI := current + 2 ^ b
    firstI := current + 1
    lastI := current + 2 ^ b - 2
    broadcastI := current + 2 ^ b - 1
    hostCountI := (2 : Int) ^ b - 2
    pfxI := 32 - b }

/-- The integer layout of the loop of calc.create_subnets: each block
starts at the running address, which then advances by the block size. -/
def intLayout : Nat → List Nat → List SubnetInts
  | _, [] => []
  | cur, b :: rest => subnetIntsOf cur b :: intLayout (cur + 2 ^ b) rest

/-- Final subnet record of calc.create_subnets.  Field names follow the
dict keys of the source; the keys named like the CIDR length and like
the remark string are shortened to pfx and ann here. -/
structure Subnet where
  addr : String
  mask : String
  pfx : String
  firstHostAddr : String
  lastHostAddr : String
  broadcastAddr : String
  succeedingAddr : String
  maxHosts : String
  ann : String
deriving DecidableEq

/-- String conversions of one subnet record, in the order the source
performs them (lines 259-264 of calc.py). -/
def toSubnet (annStr : String) (r : SubnetInts) : PyResult Subnet := do
  let addrS ← convert_ip_addr_to_octet_str_ofInt r.addrI
  let firstS ← convert_ip_addr_to_octet_str_ofInt r.firstI
  let lastS ← convert_ip_addr_to_octet_str_ofInt r.lastI
  let broadcastS ← convert_ip_addr_to_octet_str_ofInt r.broadcastI
  let succS ← convert_ip_addr_to_octet_str_ofInt r.succI
  let maskS ← convert_pfx_to_mask r.pfxI
  pure { addr := addrS, mask := maskS, pfx := Nat.repr r.pfxI,
         firstHostAddr := firstS, lastHostAddr := lastS,
         broadcastAddr := broadcastS, succeedingAddr := succS,
         maxHosts := r.hostCountI.repr, ann := annStr }

/-- Conversion of the whole layout, stopping at the first raising
conversion, as the Python loop does. -/
def buildSubnets (f : SubnetInts → PyResult Subnet) : List SubnetInts → PyResult (List Subnet)
  | [] => .ok []
  | r :: rest =>
    match f r with
    | .err e => .err e
    | .ok s =>
      match buildSubnets f rest with
      | .err e => .err e
      | .ok ss => .ok (s :: ss)

/-- Description of one faulty block inside the error text of
calc.create_subnets (apostrophes of the source text dropped). -/
def faultDescription (f : Fault) : String :=
  Nat.repr f.seq ++ ". Subnet: " ++ Int.repr ((2 : Int) ^ f.blockLen - 2) ++ " hosts max\n\thost portion: BS=" ++
    Nat.repr f.blockLen ++ " bits, " ++ Int.repr f.hostOverlap ++ " bits colliding with network portion\n\tsubnet portion: BS=" ++
    Nat.repr f.subnetBlockLen ++ " bits, " ++ Int.repr f.explOverlap ++ " bits exploding\n"

/-- Error text raised by calc.create_subnets when the fit investigation
fails (apostrophes of the source text dropped). -/
def fitFailureMsg (origIp : String) (origPfx : Nat) (cls : String) (faults : List Fault) : String :=
  "Sorry, some of your demanded subnets for network " ++ origIp ++ "/" ++ Nat.repr origPfx ++
    " (class " ++ cls ++ ") will not fit!\nPlease investigate the messages below:\n\n" ++
    String.intercalate "\n" (faults.map faultDescription) ++
    "\n(i) For class C networks, you most likely ran out of host block space.\n A subnet portion: BS=0 bits means that the host block size is too large,\n preventing the creation of subnets at all.\n More than zero bits exploding means you ran out of subnetting block space.\n"

/-- calc.create_subnets.  The second component of the returned pair is
the final state of the list argument, which the Python code sorts in
place (directly and through the fit investigation). -/
def create_subnets (origIp : String) (hostBlocksLen : List Nat) :
    PyResult (List Subnet) × List Nat :=
  match investigate_special_use origIp with
  | .err e => (.err e, hostBlocksLen)
  | .ok (isSpecial, isApt, desc) =>
    if isSpecial && !isApt then
      (.err (.userWarning ("Address reserved for special purpose: " ++ desc)), hostBlocksLen)
    else
      let annStr := if isSpecial && isApt then "Will not be routed: " ++ desc else ""
      match get_addr_cls origIp with
      | .err e => (.err e, hostBlocksLen)
      | .ok (cls, origPfx) =>
        if !(["A", "B", "C"].contains cls) then
          (.err (.userWarning "Addresses aside the classes A, B and C should not be used for subnetting!"), hostBlocksLen)
        else
          match investigate_network_block_fit origPfx hostBlocksLen with
          | (.err e, l1) => (.err e, l1)
          | (.ok (doFit, faults), l1) =>
            if !doFit then (.err (.userWarning (fitFailureMsg origIp origPfx cls faults)), l1)
            else
              let bits := ipStrBits origIp
              if bits.getLastD '0' == '1' then
                (.err (.valueError "The last octet of a valid network address must be an even number (ends with zero in binary)!"), l1)
              else
                let cur := bitsVal bits
                let l2 := sortDesc l1
                (buildSubnets (toSubnet annStr) (intLayout cur l2), l2)

/-- True when the call raised a ValueError (the FormatError of the
specification taxonomy). -/
def isValueError {α : Type} : PyResult α → Bool
  | .err (.valueError _) => true
  | _ => false

/-- Modelled from the spec, claim side of C2: the per-entry explosion
record as the claim describes it, with bitLength(count − 1) equal to 0
when count = 1, availableSubnetBits = requiredPfx − origPfx and
availableSlots = 2 to the power availableSubnetBits. -/
def claimC2Step (p sh : Nat) (s : List Nat) (i b : Nat) : Option Fault :=
  let c := s.count b
  let reqBits := if c - 1 = 0 then 0 else (natToBin (c - 1)).length
  let availBits := (32 - b) - p
  let slots := 2 ^ availBits
  if (slots ≤ c ∧ sh < b) ∨ (slots < c ∧ b = sh) then
    some ⟨i + 1, b, 0, availBits, (reqBits : Int) - (availBits : Int)⟩
  else none

/-- Modelled from the spec, claim C2 as stated: on every valid input,
every entry of the sorted list whose required prefixes fits is recorded
exactly as the claim-side explosion record prescribes. -/
def claimC2Prop : Prop :=
  ∀ (p : Nat) (l : List Nat), 8 ≤ p → p ≤ 30 → 2 ≤ l.length → (∀ b ∈ l, 2 ≤ b) →
    ∀ (i b : Nat), (sortDesc l)[i]? = some b → (p : Int) ≤ 32 - (b : Int) →
      fitStep p ((sortDesc l).getLastD 0) (sortDesc l) i b =
        claimC2Step p ((sortDesc l).getLastD 0) (sortDesc l) i b

/-- Modelled from the spec, claim C5 as stated: the fit investigation
raises exactly when the prefix leaves [8,30], the list is shorter than
2, or some entry is below 1 bit. -/
def claimC5Prop : Prop :=
  ∀ p l, (investigate_network_block_fit p l).1.isErr = true ↔
    (p < 8 ∨ 30 < p ∨ l.length < 2 ∨ ∃ b ∈ l, b < 1)

/-- Full-token config match, claim side of C8: the token must match the
pattern in its entirety. -/
def fullTokenMatch (t : String) : Option (Nat × Nat × Option Nat) :=
  match matchCfgAt t.data with
  | some (g, []) => some g
  | _ => none

/-- Whitespace-separated tokens of a config string, claim side of C8. -/
def wsTokens (s : String) : List String := (splitOnCh ' ' s.data).map String.mk

/-- Modelled from the spec, claim C8 as stated: a config string none of
whose whitespace-separated tokens matches the pattern fails with the
insufficient-configuration error. -/
def claimC8Prop : Prop :=
  ∀ s, ((wsTokens s).all fun t => (fullTokenMatch t).isNone) = true →
    get_host_blocks s true = .err (.valueError "Insufficient configuration string!")

/-- Modelled from the spec, claim C10 as stated: the two list-taking
operations leave their list argument unchanged. -/
def claimC10Prop : Prop :=
  ∀ p l s, (investigate_network_block_fit p l).2 = l ∧ (create_subnets s l).2 = l

/-- Modelled from the spec, claim side of C4: the layout laid out
directly by the specification formulas, with each subnet starting at
the origin plus the sizes of all earlier blocks. -/
def layoutSpecC4 (a : Nat) (bs : List Nat) : List SubnetInts :=
  (List.range bs.length).map fun i =>
    let start := a + ((bs.take i).map fun b => 2 ^ b).sum
    let b := bs.getD i 0
    { addrI := start
      succI := start + 2 ^ b
      firstI := start + 1
      lastI := start + 2 ^ b - 2
      broadcastI := start + 2 ^ b - 1
      hostCountI := (2 : Int) ^ b - 2
      pfxI := 32 - b }

/-- The fuel argument of natToBinGo is irrelevant as long as it exceeds
the value converted. -/
theorem natToBinGo_congr : ∀ (m f1 f2 : Nat), m < f1 → m < f2 →
    natToBinGo f1 m = natToBinGo f2 m := by
  intro m
  induction m using Nat.strong_induction_on with
  | _ m ih =>
    intro f1 f2 h1 h2
    cases f1 with
    | zero => omega
    | succ f1a =>
      cases f2 with
      | zero => omega
      | succ f2a =>
        simp only [natToBinGo]
        by_cases hm : m < 2
        · simp [hm]
        · simp only [hm, if_false]
          have := ih (m / 2) (by omega) f1a f2a (by omega) (by omega)
          rw [this]

/-- Unfolding of natToBinGo for a value of at least two digits. -/
theorem natToBinGo_succ_ge_two (fuel m : Nat) (h : 2 ≤ m) :
    natToBinGo (fuel + 1) m = natToBinGo fuel (m / 2) ++ [binDigit (m % 2)] := by
  simp only [natToBinGo]
  rw [if_neg (by omega)]

/-- The binary representation of 2 to the power d minus 1 has exactly d
digits for every positive d. -/
theorem natToBin_two_pow_sub_one : ∀ d : Nat, 1 ≤ d → (natToBin (2 ^ d - 1)).length = d := by
  intro d
  induction d with
  | zero => intro h; omega
  | succ d ih =>
    intro _
    by_cases hd : d = 0
    · subst hd; decide
    · have hd1 : 1 ≤ d := by omega
      have hpow : 2 ≤ 2 ^ d := by
        calc 2 = 2 ^ 1 := by norm_num
        _ ≤ 2 ^ d := Nat.pow_le_pow_right (by norm_num) hd1
      have hsucc : 2 ^ (d + 1) = 2 ^ d * 2 := by rw [pow_succ]
      have hm : 3 ≤ 2 ^ (d + 1) - 1 := by omega
      have hstep : natToBin (2 ^ (d + 1) - 1) =
          natToBinGo (2 ^ (d + 1) - 1) ((2 ^ (d + 1) - 1) / 2) ++
            [binDigit ((2 ^ (d + 1) - 1) % 2)] :=
        natToBinGo_succ_ge_two (2 ^ (d + 1) - 1) (2 ^ (d + 1) - 1) (by omega)
      have hdiv : (2 ^ (d + 1) - 1) / 2 = 2 ^ d - 1 := by omega
      rw [hdiv] at hstep
      have hcongr : natToBinGo (2 ^ (d + 1) - 1) (2 ^ d - 1) =
          natToBinGo (2 ^ d - 1 + 1) (2 ^ d - 1) := natToBinGo_congr _ _ _ (by omega) (by omega)
      rw [hcongr] at hstep
      have hbin : natToBinGo (2 ^ d - 1 + 1) (2 ^ d - 1) = natToBin (2 ^ d - 1) := rfl
      rw [hbin] at hstep
      rw [hstep, List.length_append, ih hd1]
      simp

/-- Claim C1 (code bug): with original prefix 24 the fit investigation
accepts the block list [7,6,6,6,5] (fits = true, no faults, and the
list stays descending), yet the blocks demand 352 addresses while a /24
network holds only 2 to the power (32 − 24) = 256, and the layout of
the subnet builder accordingly ends 352 addresses past the origin. -/
theorem c1_fit_accepts_overcommitted_plan :
    investigate_network_block_fit 24 [7, 6, 6, 6, 5] = (.ok (true, []), [7, 6, 6, 6, 5]) ∧
    (([7, 6, 6, 6, 5].map fun b => 2 ^ b).sum = 352 ∧ 2 ^ (32 - 24) = 256 ∧ 256 < 352) ∧
    ((intLayout 0 [7, 6, 6, 6, 5]).map SubnetInts.succI).getLastD 0 = 352 := by decide

/-- Claim C3 (code bug): the config parser turns the request of 3 hosts
with no reserve into a block of bitLength(3) = 2 bits, whose power-of-two
host block offers only 2^2 − 2 = 2 host addresses, fewer than demanded. -/
theorem c3_three_host_request_gets_two_host_block :
    get_host_blocks "3:0 3:0" true = .ok [2, 2] ∧ ¬(3 ≤ 2 ^ 2 - 2) := by decide

/-- Claim C7 (code bug): the string branch of the octet conversion
rejects the all-zero and the all-one 32-character binary strings (both
made of the characters 0 and 1 only), because the code demands exactly
two distinct characters; a mixed binary string is accepted. -/
theorem c7_all_zero_binary_string_rejected :
    convert_ip_addr_to_octet_str_ofStr (String.mk (List.replicate 32 '0')) =
      .err (.valueError "Param ip is not a valid binary IP string!") ∧
    convert_ip_addr_to_octet_str_ofStr (String.mk (List.replicate 32 '1')) =
      .err (.valueError "Param ip is not a valid binary IP string!") ∧
    ((List.replicate 32 '0' ++ List.replicate 32 '1').all fun c => c = '0' ∨ c = '1') = true ∧
    convert_ip_addr_to_octet_str_ofStr (String.mk (List.replicate 31 '0' ++ ['1'])) =
      .ok "0.0.0.1" := by decide

/-- Claim C2 (counterexample): on prefix 24 with blocks [9,8] the entry
of size 8 has requiredPrefix = origPrefix = 24 and count = 1; the claim
predicts one slot (2^0) and no explosion fault for this smallest block,
but the code grants zero slots and records the explosion fault
(2, 8, 0, 0, 1). -/
theorem c2_counterexample : ¬claimC2Prop := by
  unfold claimC2Prop
  intro h
  have h2 := h 24 [9, 8] (by decide) (by decide) (by decide) (by decide) 1 8 (by decide) (by decide)
  exact absurd h2 (by decide)

/-- Claim C5 (counterexample): the list [1,1] has two entries, each of
at least 1 bit, so the claim predicts the analysis runs; the code raises a
ConfigError because it requires at least 2 bits per entry. -/
theorem c5_counterexample : ¬claimC5Prop := by
  unfold claimC5Prop
  intro h
  have h2 := (h 24 [1, 1]).mp (by decide)
  exact absurd h2 (by decide)

/-- Claim C8 (counterexample): in the config string built of the tokens
2:0! and 2:0! no whitespace-separated token matches the pattern in its
entirety, so the claim predicts the insufficient-configuration failure;
the code scans for the pattern inside tokens and returns the blocks
[2, 2]. -/
theorem c8_counterexample : ¬claimC8Prop := by
  unfold claimC8Prop
  intro h
  have h2 := h "2:0! 2:0!" (by decide)
  exact absurd h2 (by decide)

/-- Claim C6 (counterexample): the loopback address 127.0.0.1 has an
odd final octet, yet the builder raises the special-use UserWarning and
not the even-octet ValueError, because the special-use check runs
first: the odd final octet does not fail with FormatError regardless of
the address being special-use. -/
theorem c6_counterexample :
    (create_subnets "127.0.0.1" [2, 2]).1 =
      .err (.userWarning "Address reserved for special purpose: Loopback (RFC 1122, Section 3.2.1.3)") ∧
    isValueError (create_subnets "127.0.0.1" [2, 2]).1 = false ∧
    (ipStrBits "127.0.0.1").getLastD '0' = '1' := by decide

/-- Claim C10 (counterexample): the fit investigation of prefix 24 on
the list [2,3] returns with the list argument reordered to [3,2]: the
call does not leave its argument unchanged. -/
theorem c10_counterexample : ¬claimC10Prop := by
  unfold claimC10Prop
  intro h
  have h2 := (h 24 [2, 3] "10.0.0.0").1
  exact absurd h2 (by decide)

/-- The available subnetting count of the source equals zero exactly at
the boundary and the power of two of the available bits elsewhere, once
the required prefix is known not to undershoot the original one. -/
theorem fitAvailCnt_eq (p b : Nat) (h8 : 8 ≤ p) (hb : (p : Int) ≤ 32 - (b : Int)) :
    fitAvailCnt p b = if 32 - b = p then 0 else 2 ^ ((32 - b) - p) := by
  have hb24 : b ≤ 24 := by omega
  unfold fitAvailCnt
  by_cases heq : 32 - b = p
  · rw [if_pos (by omega), if_pos heq]
  · rw [if_neg (by omega), if_neg heq]

/-- The available subnetting block length of the source equals the
count of available subnetting bits, once the required prefix is known
not to undershoot the original one. -/
theorem fitAvailLen_eq (p b : Nat) (h8 : 8 ≤ p) (hb : (p : Int) ≤ 32 - (b : Int)) :
    fitAvailLen p b = (32 - b) - p := by
  have hb24 : b ≤ 24 := by omega
  unfold fitAvailLen
  by_cases heq : 32 - b = p
  · rw [if_pos (by omega)]
    omega
  · rw [if_neg (by omega)]
    rw [natToBin_two_pow_sub_one (32 - b - p) (by omega)]

/-- Per-entry characterization of the fit loop body for entries whose
host block fits: an explosion fault with the exact fields of the
source, under the corrected slot count (zero at the boundary) and the
corrected subnetting bit length (one digit for a single subnet). -/
theorem fitStep_explosion_form (p sh : Nat) (s : List Nat) (i b : Nat)
    (h8 : 8 ≤ p) (hb : (p : Int) ≤ 32 - (b : Int)) :
    fitStep p sh s i b =
      (if ((if 32 - b = p then 0 else 2 ^ ((32 - b) - p)) ≤ s.count b ∧ sh < b)
          ∨ ((if 32 - b = p then 0 else 2 ^ ((32 - b) - p)) < s.count b ∧ b = sh) then
        some ⟨i + 1, b, 0, (32 - b) - p,
          ((natToBin (s.count b - 1)).length : Int) - (((32 - b) - p : Nat) : Int)⟩
      else none) := by
  unfold fitStep
  rw [if_neg (by omega), fitAvailCnt_eq p b h8 hb, fitAvailLen_eq p b h8 hb]
  by_cases hcond : ((if 32 - b = p then 0 else 2 ^ ((32 - b) - p)) ≤ s.count b ∧ sh < b)
      ∨ ((if 32 - b = p then 0 else 2 ^ ((32 - b) - p)) < s.count b ∧ b = sh)
  · rw [if_pos (by simp only [Bool.or_eq_true, Bool.and_eq_true, decide_eq_true_eq, beq_iff_eq]; exact hcond),
      if_pos hcond]
  · rw [if_neg (by simp only [Bool.or_eq_true, Bool.and_eq_true, decide_eq_true_eq, beq_iff_eq]; exact hcond),
      if_neg hcond]

/-- A fault belongs to the loop result exactly when some entry of the
remaining list produces it at its position. -/
theorem fitLoop_mem_iff (p sh : Nat) (s : List Nat) :
    ∀ (l : List Nat) (n : Nat) (f : Fault),
      f ∈ fitLoop p sh s n l ↔ ∃ j b, l[j]? = some b ∧ fitStep p sh s (n + j) b = some f := by
  intro l
  induction l with
  | nil =>
    intro n f
    simp [fitLoop]
  | cons b0 t ih =>
    intro n f
    cases hstep : fitStep p sh s n b0 with
    | some f0 =>
      simp only [fitLoop, hstep, List.mem_cons, ih]
      constructor
      · rintro (rfl | ⟨j, b, hj, hs⟩)
        · exact ⟨0, b0, by simp, by simpa using hstep⟩
        · refine ⟨j + 1, b, by simpa using hj, ?_⟩
          rw [show n + (j + 1) = n + 1 + j by omega]
          exact hs
      · rintro ⟨j, b, hj, hs⟩
        cases j with
        | zero =>
          simp only [List.getElem?_cons_zero, Option.some.injEq] at hj
          subst hj
          rw [Nat.add_zero, hstep] at hs
          exact Or.inl (by injection hs with h; exact h.symm)
        | succ j =>
          right
          refine ⟨j, b, by simpa using hj, ?_⟩
          rw [show n + 1 + j = n + (j + 1) by omega]
          exact hs
    | none =>
      simp only [fitLoop, hstep, ih]
      constructor
      · rintro ⟨j, b, hj, hs⟩
        refine ⟨j + 1, b, by simpa using hj, ?_⟩
        rw [show n + (j + 1) = n + 1 + j by omega]
        exact hs
      · rintro ⟨j, b, hj, hs⟩
        cases j with
        | zero =>
          simp only [List.getElem?_cons_zero, Option.some.injEq] at hj
          subst hj
          rw [Nat.add_zero, hstep] at hs
          cases hs
        | succ j =>
          refine ⟨j, b, by simpa using hj, ?_⟩
          rw [show n + 1 + j = n + (j + 1) by omega]
          exact hs

/-- Claim C2 (amended): the faults of the fit loop are exactly the
per-entry records, and for every entry whose host block fits the
recorded explosion fault follows the claim formulas corrected at two
points: when requiredPrefix equals the original prefix the code grants
zero available slots (not one), and the subnetting block length demanded
by count same-sized subnets is the digit count of bin(count − 1), which
is 1 (not 0) when count = 1; the fault fields are the sequence number,
the block length, zero host overlap, availableSubnetBits, and the
difference of the demanded and available subnetting lengths. -/
theorem c2_amended :
    (∀ (p sh : Nat) (s l : List Nat) (n : Nat) (f : Fault),
      f ∈ fitLoop p sh s n l ↔ ∃ j b, l[j]? = some b ∧ fitStep p sh s (n + j) b = some f) ∧
    (∀ (p sh : Nat) (s : List Nat) (i b : Nat), 8 ≤ p → (p : Int) ≤ 32 - (b : Int) →
      fitStep p sh s i b =
        (if ((if 32 - b = p then 0 else 2 ^ ((32 - b) - p)) ≤ s.count b ∧ sh < b)
            ∨ ((if 32 - b = p then 0 else 2 ^ ((32 - b) - p)) < s.count b ∧ b = sh) then
          some ⟨i + 1, b, 0, (32 - b) - p,
            ((natToBin (s.count b - 1)).length : Int) - (((32 - b) - p : Nat) : Int)⟩
        else none)) :=
  ⟨fun p sh s l n f => fitLoop_mem_iff p sh s l n f,
   fun p sh s i b h8 hb => fitStep_explosion_form p sh s i b h8 hb⟩

/-- Witness for the amended claim C2 at the counterexample input: the
entry of size 8 at position 1 of [9,8] under prefix 24 records the
explosion fault (2, 8, 0, 0, 1). -/
theorem c2_amended_witness : fitStep 24 8 [9, 8] 1 8 = some ⟨2, 8, 0, 0, 1⟩ := by
  have h := c2_amended.2 24 8 [9, 8] 1 8 (by decide) (by decide)
  rw [h]
  decide

/-- The integer layout of the builder loop equals the specification
layout: the i-th subnet starts at the origin plus the sum of the sizes
of all earlier blocks. -/
theorem intLayout_eq_layoutSpec : ∀ (bs : List Nat) (a : Nat), intLayout a bs = layoutSpecC4 a bs := by
  intro bs
  induction bs with
  | nil => intro a; rfl
  | cons b t ih =>
    intro a
    show subnetIntsOf a b :: intLayout (a + 2 ^ b) t = layoutSpecC4 a (b :: t)
    rw [ih]
    unfold layoutSpecC4
    rw [show (b :: t).length = t.length + 1 from rfl, List.range_succ_eq_map]
    rw [List.map_cons, List.map_map]
    congr 1
    refine List.map_congr_left fun i hi => ?_
    simp only [Function.comp_apply, List.take_succ_cons, List.map_cons, List.sum_cons,
      List.getD_cons_succ, SubnetInts.mk.injEq]
    generalize (List.map (fun x => 2 ^ x) (List.take i t)).sum = S
    generalize (2 : Nat) ^ t.getD i 0 = Q
    generalize (2 : Nat) ^ b = P
    simp only [and_true]
    omega

/-- Claim C4: the builder loop realizes exactly the per-block address
formulas of the specification (subnet start, exclusive end, first and
last host, broadcast, capacity and prefix, with the next subnet at the
successor address), and the concrete build of 192.168.1.0 with blocks
[2,2] yields 192.168.1.0/30 (hosts .1-.2, broadcast .3) followed by
192.168.1.4/30 (hosts .5-.6, broadcast .7). -/
theorem c4_subnet_layout :
    (∀ (a : Nat) (bs : List Nat), intLayout a bs = layoutSpecC4 a bs) ∧
    create_subnets "192.168.1.0" [2, 2] =
      (.ok
        [⟨"192.168.1.0", "255.255.255.252", "30", "192.168.1.1", "192.168.1.2",
          "192.168.1.3", "192.168.1.4", "2", "Will not be routed: Private-Use Networks (RFC 1918)"⟩,
         ⟨"192.168.1.4", "255.255.255.252", "30", "192.168.1.5", "192.168.1.6",
          "192.168.1.7", "192.168.1.8", "2", "Will not be routed: Private-Use Networks (RFC 1918)"⟩],
       [2, 2]) :=
  ⟨fun a bs => intLayout_eq_layoutSpec bs a, by decide⟩

/-- A positive count of entries below two in the mapped flag list is
the same as the existence of an entry below two. -/
theorem countTrue_lt2_pos_iff (l : List Nat) :
    0 < (l.map (fun b => decide (b < 2))).count true ↔ ∃ b ∈ l, b < 2 := by
  induction l with
  | nil => simp
  | cons a t ih =>
    simp only [List.map_cons, List.count_cons]
    by_cases ha : a < 2
    · simp [ha]
    · simp [ha, ih]

/-- Claim C5 (amended): the fit investigation raises exactly when the
prefix leaves [8,30], the list is shorter than 2, or some entry is
below 2 bits; each validation failure carries its own message, checked
in that order. -/
theorem c5_amended :
    (∀ (p : Nat) (l : List Nat), (investigate_network_block_fit p l).1.isErr = true ↔
      (p < 8 ∨ 30 < p ∨ l.length < 2 ∨ ∃ b ∈ l, b < 2)) ∧
    (∀ (p : Nat) (l : List Nat), p < 8 ∨ 30 < p →
      (investigate_network_block_fit p l).1 =
        .err (.valueError "Invalid prefix, must keep between 8 and 30!")) ∧
    (∀ (p : Nat) (l : List Nat), 8 ≤ p → p ≤ 30 → l.length < 2 →
      (investigate_network_block_fit p l).1 =
        .err (.valueError "Host block list must provide at least 2 entries!")) ∧
    (∀ (p : Nat) (l : List Nat), 8 ≤ p → p ≤ 30 → 2 ≤ l.length → (∃ b ∈ l, b < 2) →
      (investigate_network_block_fit p l).1 =
        .err (.valueError "Every host block length provided inside the list must be at least 2 bits!")) := by
  refine ⟨?_, ?_, ?_, ?_⟩
  · intro p l
    unfold investigate_network_block_fit
    by_cases h1 : 8 ≤ p ∧ p ≤ 30
    · rw [if_neg (by simp; omega)]
      by_cases h2 : l.length < 2
      · rw [if_pos h2]
        simp only [PyResult.isErr, true_iff]
        exact Or.inr (Or.inr (Or.inl h2))
      · rw [if_neg h2]
        by_cases h3 : ∃ b ∈ l, b < 2
        · rw [if_pos ((countTrue_lt2_pos_iff l).mpr h3)]
          simp only [PyResult.isErr, true_iff]
          exact Or.inr (Or.inr (Or.inr h3))
        · rw [if_neg (fun hc => h3 ((countTrue_lt2_pos_iff l).mp hc))]
          simp only [PyResult.isErr, Bool.false_eq_true, false_iff]
          rintro (hh | hh | hh | ⟨b, hb, hlt⟩)
          · omega
          · omega
          · omega
          · exact h3 ⟨b, hb, hlt⟩
    · rw [if_pos (by simp; omega)]
      simp only [PyResult.isErr, true_iff]
      have : p < 8 ∨ 30 < p := by omega
      rcases this with hh | hh
      · exact Or.inl hh
      · exact Or.inr (Or.inl hh)
  · intro p l h
    unfold investigate_network_block_fit
    rw [if_pos (by simp; omega)]
  · intro p l h1 h2 h3
    unfold investigate_network_block_fit
    rw [if_neg (by simp; omega), if_pos h3]
  · intro p l h1 h2 h3 h4
    unfold investigate_network_block_fit
    rw [if_neg (by simp; omega), if_neg (by omega), if_pos ((countTrue_lt2_pos_iff l).mpr h4)]

/-- Witness for the amended claim C5: prefix 7 is below the range, so
the fit investigation raises the range message. -/
theorem c5_amended_witness :
    (investigate_network_block_fit 7 [2, 2]).1 =
      .err (.valueError "Invalid prefix, must keep between 8 and 30!") :=
  c5_amended.2.1 7 [2, 2] (Or.inl (by decide))

/-- The descending sort is a permutation of its input. -/
theorem sortDesc_perm (l : List Nat) : (sortDesc l).Perm l := List.perm_insertionSort _ l

/-- The descending sort is sorted for the at-least order. -/
theorem sortDesc_sorted (l : List Nat) : (sortDesc l).Sorted (· ≥ ·) :=
  List.sorted_insertionSort _ l

/-- Sorting an already sorted list again changes nothing. -/
theorem sortDesc_idem (l : List Nat) : sortDesc (sortDesc l) = sortDesc l :=
  List.Sorted.insertionSort_eq (sortDesc_sorted l)

/-- List state of the fit investigation: unchanged on the validation
errors (raised before the in-place sort), sorted descending on a
returning call. -/
theorem fit_list_state (p : Nat) (l : List Nat) :
    ((investigate_network_block_fit p l).1.isErr = true → (investigate_network_block_fit p l).2 = l) ∧
    ((investigate_network_block_fit p l).1.isErr = false → (investigate_network_block_fit p l).2 = sortDesc l) := by
  unfold investigate_network_block_fit
  split_ifs with h1 h2 h3 <;> simp [PyResult.isErr]

/-- List state of the subnet builder: the list argument ends either
unchanged (failures before the fit investigation sorts it) or sorted
descending. -/
theorem create_subnets_list_state (s : String) (l : List Nat) :
    (create_subnets s l).2 = l ∨ (create_subnets s l).2 = sortDesc l := by
  unfold create_subnets
  cases h1 : investigate_special_use s with
  | err e => exact Or.inl rfl
  | ok su =>
    obtain ⟨su1, su2, su3⟩ := su
    by_cases h2 : (su1 && !su2) = true
    · simp only [h2, if_true]
      exact Or.inl trivial
    · simp only [Bool.not_eq_true] at h2
      simp only [h2, Bool.false_eq_true, if_false]
      cases h3 : get_addr_cls s with
      | err e => exact Or.inl rfl
      | ok cp =>
        obtain ⟨cls, p⟩ := cp
        by_cases h4 : (!(["A", "B", "C"].contains cls)) = true
        · simp only [h4, if_true]
          exact Or.inl trivial
        · simp only [Bool.not_eq_true] at h4
          simp only [h4, Bool.false_eq_true, if_false]
          have hstate := fit_list_state p l
          cases h5 : investigate_network_block_fit p l with
          | mk fitRes l1 =>
            rw [h5] at hstate
            cases fitRes with
            | err e =>
              have hl1 : l1 = l := hstate.1 rfl
              subst hl1
              exact Or.inl rfl
            | ok fits =>
              obtain ⟨doFit, faults⟩ := fits
              have hl1 : l1 = sortDesc l := hstate.2 rfl
              subst hl1
              by_cases h6 : (!doFit) = true
              · simp only [h6, if_true]
                exact Or.inr trivial
              · simp only [Bool.not_eq_true] at h6
                simp only [h6, Bool.false_eq_true, if_false]
                by_cases h7 : ((ipStrBits s).getLastD '0' == '1') = true
                · simp only [h7, if_true]
                  exact Or.inr trivial
                · simp only [Bool.not_eq_true] at h7
                  simp only [h7, Bool.false_eq_true, if_false]
                  exact Or.inr (sortDesc_idem l)

/-- Claim C10 (amended): the two list-taking operations mutate their
list argument only by sorting it descending in place: the fit
investigation returns it unchanged on validation failures and sorted
descending otherwise; the subnet builder returns it either unchanged or
sorted descending; and the sort is a permutation (same elements) that
is sorted for the at-least order. -/
theorem c10_amended :
    (∀ (p : Nat) (l : List Nat),
      ((investigate_network_block_fit p l).1.isErr = true → (investigate_network_block_fit p l).2 = l) ∧
      ((investigate_network_block_fit p l).1.isErr = false → (investigate_network_block_fit p l).2 = sortDesc l)) ∧
    (∀ (s : String) (l : List Nat), (create_subnets s l).2 = l ∨ (create_subnets s l).2 = sortDesc l) ∧
    (∀ l : List Nat, (sortDesc l).Perm l ∧ (sortDesc l).Sorted (· ≥ ·)) :=
  ⟨fit_list_state, create_subnets_list_state, fun l => ⟨sortDesc_perm l, sortDesc_sorted l⟩⟩

/-- Witness for the amended claim C10: the successful fit investigation
of prefix 24 on [2,3] hands the list back sorted descending. -/
theorem c10_amended_witness : (investigate_network_block_fit 24 [2, 3]).2 = sortDesc [2, 3] :=
  (c10_amended.1 24 [2, 3]).2 (by decide)

/-- The per-match processing loop never raises the
insufficient-configuration message: its own errors concern host counts
and multipliers. -/
theorem processCfgMatches_ne_insufficient :
    ∀ (isB : Bool) (ms : List (Nat × Nat × Option Nat)) (e : PyErr),
      processCfgMatches isB ms = .err e →
      e ≠ .valueError "Insufficient configuration string!" := by
  intro isB ms
  induction ms with
  | nil =>
    intro e he
    simp [processCfgMatches] at he
  | cons m rest ih =>
    obtain ⟨h, r, mo⟩ := m
    intro e he
    simp only [processCfgMatches] at he
    by_cases hh : h < 2
    · rw [if_pos hh] at he
      simp only [PyResult.err.injEq] at he
      subst he
      decide
    · rw [if_neg hh] at he
      by_cases hm : (match mo with | some ml => ml | none => 1) < 1
      · rw [if_pos hm] at he
        simp only [PyResult.err.injEq] at he
        subst he
        decide
      · rw [if_neg hm] at he
        cases hrest : processCfgMatches isB rest with
        | err e2 =>
          rw [hrest] at he
          simp only [PyResult.err.injEq] at he
          subst he
          exact ih e2 hrest
        | ok bs =>
          rw [hrest] at he
          simp at he

/-- Claim C8 (amended): the parser scans the whole config string for
occurrences of the H:R / H:RxN pattern regardless of token boundaries
(a token lacking a full match can still contribute block sizes through
an inner occurrence), and the insufficient-configuration failure occurs
exactly when no occurrence exists anywhere in the string. -/
theorem c8_amended :
    ∀ s : String,
      get_host_blocks s true = .err (.valueError "Insufficient configuration string!") ↔
      findallCfg s = [] := by
  intro s
  unfold get_host_blocks
  cases hf : findallCfg s with
  | nil => simp
  | cons m ms =>
    constructor
    · intro h
      exfalso
      have h2 : (match processCfgMatches true (m :: ms) with
          | PyResult.err e => PyResult.err e
          | PyResult.ok blocks =>
            if blocks.length < 2 then
              PyResult.err (PyErr.valueError "Provide at least 2 host blocks!")
            else PyResult.ok (sortDesc blocks)) =
          PyResult.err (PyErr.valueError "Insufficient configuration string!") := h
      cases hp : processCfgMatches true (m :: ms) with
      | err e =>
        rw [hp] at h2
        simp only [PyResult.err.injEq] at h2
        exact processCfgMatches_ne_insufficient true (m :: ms) e hp h2
      | ok blocks =>
        rw [hp] at h2
        simp only [] at h2
        by_cases hlen : blocks.length < 2
        · rw [if_pos hlen] at h2
          simp only [PyResult.err.injEq, PyErr.valueError.injEq] at h2
          exact absurd h2 (by decide)
        · rw [if_neg hlen] at h2
          exact absurd h2 (by simp)
    · intro h
      exact absurd h (List.cons_ne_nil m ms)

/-- The table loop of the special-use investigation returns the data of
the first matching entry. -/
theorem specialUseLookup_eq_find (ipInt : Nat) :
    ∀ l : List SpecialUseEntry, specialUseLookup ipInt l =
      (match l.find? (fun e => ipInt &&& maskOfPfx e.pfx == entryNetAddr e) with
       | some e => (true, e.apt, e.desc)
       | none => (false, true, "")) := by
  intro l
  induction l with
  | nil => rfl
  | cons e rest ih =>
    simp only [specialUseLookup]
    by_cases h : (ipInt &&& maskOfPfx e.pfx == entryNetAddr e) = true
    · rw [if_pos h,
        show List.find? (fun e2 => ipInt &&& maskOfPfx e2.pfx == entryNetAddr e2) (e :: rest) =
          some e from List.find?_cons_of_pos rest h]
    · rw [if_neg h,
        show List.find? (fun e2 => ipInt &&& maskOfPfx e2.pfx == entryNetAddr e2) (e :: rest) =
          List.find? (fun e2 => ipInt &&& maskOfPfx e2.pfx == entryNetAddr e2) rest from
          List.find?_cons_of_neg rest h]
      exact ih

/-- Claim C9: the special-use investigation returns the data of the
first table entry matching the address under the mask of its prefix;
an entry reports apt-for-subnetting exactly when it is one of the three
RFC 1918 private networks; and on every well-formed address string the
call succeeds with the table lookup of the address value (so a
no-match address yields (false, true, the empty string) by the lookup
definition). -/
theorem c9_special_use :
    (∀ ipInt : Nat, specialUseLookup ipInt special_use_networks =
      (match special_use_networks.find? (fun e => ipInt &&& maskOfPfx e.pfx == entryNetAddr e) with
       | some e => (true, e.apt, e.desc)
       | none => (false, true, ""))) ∧
    (∀ e, e ∈ special_use_networks →
      (e.apt = true ↔ (e.o1, e.o2, e.o3, e.o4, e.pfx) ∈
        [(10, 0, 0, 0, 8), (172, 16, 0, 0, 12), (192, 168, 0, 0, 16)])) ∧
    (∀ s : String, is_ipaddr_well_formed s = true →
      investigate_special_use s = .ok (specialUseLookup (ipStrToInt s) special_use_networks)) := by
  refine ⟨fun ipInt => specialUseLookup_eq_find ipInt special_use_networks, by decide, ?_⟩
  intro s h
  unfold investigate_special_use
  rw [h]
  rfl

/-- Witness for claim C9: the 10/8 entry is apt for subnetting, and the
address 10.1.2.3 resolves through the lookup (to the RFC 1918 private
range). -/
theorem c9_special_use_witness :
    ((⟨10, 0, 0, 0, 8, true, "Private-Use Networks (RFC 1918)"⟩ : SpecialUseEntry).apt = true ↔
      (10, 0, 0, 0, 8) ∈ [(10, 0, 0, 0, 8), (172, 16, 0, 0, 12), (192, 168, 0, 0, 16)]) ∧
    investigate_special_use "10.1.2.3" =
      .ok (specialUseLookup (ipStrToInt "10.1.2.3") special_use_networks) :=
  ⟨c9_special_use.2.1 ⟨10, 0, 0, 0, 8, true, "Private-Use Networks (RFC 1918)"⟩ (by decide),
   c9_special_use.2.2 "10.1.2.3" (by decide)⟩

/-- Claim C6 (amended): for a block list and address that pass every
earlier check of the builder (special use, address class, fit), an odd
final octet fails with the even-octet ValueError; the Python code runs
the special-use, class and fit checks first, so their failures take
precedence over the odd-octet check. -/
theorem c6_amended :
    ∀ (s : String) (l : List Nat) (su : Bool × Bool × String) (cls : String) (p : Nat)
      (fr : List Fault) (l1 : List Nat),
      investigate_special_use s = .ok su →
      (su.1 && !su.2.1) = false →
      get_addr_cls s = .ok (cls, p) →
      (["A", "B", "C"].contains cls) = true →
      investigate_network_block_fit p l = (.ok (true, fr), l1) →
      (ipStrBits s).getLastD '0' = '1' →
      create_subnets s l =
        (.err (.valueError "The last octet of a valid network address must be an even number (ends with zero in binary)!"), l1) := by
  intro s l su cls p fr l1 h1 h2 h3 h4 h5 h6
  obtain ⟨su1, su2, su3⟩ := su
  simp only at h2
  unfold create_subnets
  simp only [h1, h2, h3, h4, h5, h6, Bool.false_eq_true, if_false, Bool.not_true,
    beq_self_eq_true, if_true]

/-- Witness for the amended claim C6: the private class A address
10.0.0.1 with the fitting blocks [2,2] passes the earlier checks and
fails on its odd final octet. -/
theorem c6_amended_witness :
    create_subnets "10.0.0.1" [2, 2] =
      (.err (.valueError "The last octet of a valid network address must be an even number (ends with zero in binary)!"), [2, 2]) :=
  c6_amended "10.0.0.1" [2, 2] (true, true, "Private-Use Networks (RFC 1918)") "A" 8 [] [2, 2]
    (by decide) (by decide) (by decide) (by decide) (by decide) (by decide)
